import Mathlib

set_option maxRecDepth 1000000

/-!
Verification of the Adaptive-AI-Scheduler core (scheduler/models.py,
scheduler/prophet_model.py, scheduler/optimizer.py, scheduler/scheduler.py).

Shallow embedding conventions:
* Timestamps are integers counting minutes in the schedule's local timezone,
  anchored so that minute 0 is a Monday 00:00 (pandas `weekday` is 0 for
  Monday; `dt.date` becomes the integer day number `t.fdiv 1440`).
  Daylight-saving irregularities are not modelled.
* `Task.dur_h` is a float number of hours in the source; it is embedded as
  `dur_min`, the duration in whole minutes (`dur_min = dur_h * 60`).
* A pandas DataFrame of slots is represented by its defining data: the week
  start, the slot granularity and the slot count; slot `i` has timestamp
  `slotTime inp i = weekStart + i * slot_minutes` exactly as produced by
  `build_slots` (pandas `date_range(week_start, week_start+7d, freq=G,
  inclusive="left")`).
* The CP-SAT solver of `optimize_schedule` is modelled adversarially: a
  solution is an arbitrary assignment `ps : List (Option Nat)` of a chosen
  feasible start (or none) to each task, constrained by `validPlacement`,
  which transcribes exactly the constraints the source posts on the model
  (exactly-one start per feasible task, per-slot mutual exclusion, pairwise
  buffer, per-day cap on task blocks).  Every claim about "valid outputs"
  quantifies over all such solutions.
* The final `sort_values("start")` of `optimize_schedule` only permutes the
  returned rows; the embedding keeps the rows in task order, and all
  properties proved are permutation-invariant.
* The tz-awareness of the `week_start` datetime is embedded as the flag
  `weekStartTzAware`; `datetime.tzinfo is None` corresponds to `false`.
-/

namespace Sched

/-- Embeds `UserPrefs` from scheduler/models.py, with the source defaults. -/
structure UserPrefs where
  tz : String := "America/New_York"
  slot_minutes : Nat := 60
  avoid_evenings_after : Nat := 20
  prefer_morning_start : Nat := 8
  prefer_morning_end : Nat := 11
  weekend_ok : Bool := false
  buffer_minutes : Nat := 60
  max_hours_per_day : Nat := 4
deriving DecidableEq, Repr

/-- Embeds `FixedEvent` from scheduler/models.py.  The source field `end` is a
Lean keyword and is embedded as `stop`.  Timestamps are minutes (tz-aware
datetimes in the source). -/
structure FixedEvent where
  id : String
  label : String
  start : Int
  stop : Int
deriving DecidableEq, Repr

/-- Embeds `Task` from scheduler/models.py; `dur_min` is `dur_h * 60` in whole
minutes, `latest` is the optional deadline timestamp. -/
structure Task where
  id : String
  label : String
  dur_min : Nat
  priority : Int
  latest : Option Int
deriving DecidableEq, Repr

/-- Embeds one row of the `scheduled_df` result of `optimize_schedule`
(columns id, label, start, end, priority); the `end` column is `stop`. -/
structure Assignment where
  id : String
  label : String
  start : Int
  stop : Int
  priority : Int
deriving DecidableEq, Repr

/-- Input of one `generate_schedule` run (scheduler/scheduler.py): week start,
preferences, fixed events, tasks, missed intervals and the optional
`start_from` cutoff. -/
structure SchedInput where
  weekStart : Int
  weekStartTzAware : Bool
  prefs : UserPrefs
  fixedEvents : List FixedEvent
  tasks : List Task
  missedIntervals : List (Int × Int)
  startFrom : Option Int
deriving Repr

/-- Calendar day number of a minute timestamp (pandas `.dt.date`): floor
division by 1440 minutes. -/
def dayOf (t : Int) : Int := Int.fdiv t 1440

/-- Day of week of a minute timestamp (pandas `.dt.weekday`, Monday = 0):
the epoch of the embedding is a Monday 00:00. -/
def weekdayOf (t : Int) : Int := (Int.fdiv t 1440).emod 7

/-- Timestamp of slot `i`: `build_slots` generates the grid
`week_start + i * slot_minutes`. -/
def slotTime (inp : SchedInput) (i : Nat) : Int :=
  inp.weekStart + i * inp.prefs.slot_minutes

/-- Number of slots produced by `build_slots` for `days` days at granularity
`G`: pandas `date_range(start, start + days, freq=G, inclusive="left")`
yields every `start + k*G` with `k*G < days*1440`, i.e. `⌈days*1440 / G⌉`
points. -/
def slotCount (G : Nat) (days : Nat) : Nat := (days * 1440 + G - 1) / G

/-- Embeds `build_slots` of scheduler/prophet_model.py: the ordered list of
slot timestamps for `days` days from `week_start` (default 7). -/
def build_slots (week_start : Int) (G : Nat) (days : Nat) : List Int :=
  (List.range (slotCount G days)).map (fun (k : Nat) => week_start + (k : Int) * (G : Int))

/-- Slot count of the one-week grid `generate_schedule` feeds to the
optimizer (`build_slots` with `days = 7`). -/
def numSlots (inp : SchedInput) : Nat := slotCount inp.prefs.slot_minutes 7

/-- Embeds `build_blocked_mask` of scheduler/optimizer.py, pointwise: slot `i`
is blocked when it is before `start_from`, inside a fixed event's half-open
interval, on a weekend while weekends are disallowed, or inside a missed
interval. -/
def blockedMask (inp : SchedInput) (i : Nat) : Bool :=
  (match inp.startFrom with
   | some sf => decide (slotTime inp i < sf)
   | none => false)
  || inp.fixedEvents.any (fun fe =>
       decide (fe.start ≤ slotTime inp i) && decide (slotTime inp i < fe.stop))
  || (!inp.prefs.weekend_ok && decide (5 ≤ weekdayOf (slotTime inp i)))
  || inp.missedIntervals.any (fun se =>
       decide (se.1 ≤ slotTime inp i) && decide (slotTime inp i < se.2))

/-- Task with index `t` of the run (row `t` of `tasks_df`); out-of-range
indices give a dummy task and are never used by the theorems. -/
def taskAt (inp : SchedInput) (t : Nat) : Task :=
  inp.tasks.getD t { id := "", label := "", dur_min := 0, priority := 0, latest := none }

/-- Run length of task `t` in slots: the source computes
`int(task_row.dur_h * 60 // prefs.slot_minutes)`, a floor division. -/
def durSlots (inp : SchedInput) (t : Nat) : Nat :=
  (taskAt inp t).dur_min / inp.prefs.slot_minutes

/-- Filter condition of `feasible_starts`: no blocked slot inside the run
`[i, i + durSlots)` and, when a deadline is set, run end at or before it.
The source computes the run end as `slots.loc[i + dur - 1, "ds"] +
slot_minutes`, which equals `slotTime inp (i + durSlots)` at every index the
source evaluates without error. -/
def feasOk (inp : SchedInput) (t : Nat) (i : Nat) : Bool :=
  ((List.range (durSlots inp t)).all fun k => !(blockedMask inp (i + k)))
  && (match (taskAt inp t).latest with
      | none => true
      | some L => decide (slotTime inp (i + durSlots inp t) ≤ L))

/-- Embeds `feasible_starts` of scheduler/optimizer.py: candidate start
indices `i ∈ range(len(slots) - dur_slots + 1)` whose run avoids blocked
slots and meets the deadline.  Python's `range(len - dur + 1)` is empty when
`dur > len`, matching the truncated subtraction `numSlots + 1 - dur`. -/
def feasible_starts (inp : SchedInput) (t : Nat) : List Nat :=
  (List.range (numSlots inp + 1 - durSlots inp t)).filter (feasOk inp t)

/-- Start chosen by the solver for task `t` (`none` = no placement
variable of task `t` is true). -/
def choiceAt (ps : List (Option Nat)) (t : Nat) : Option Nat := ps.getD t none

/-- Exactly-one-start constraint, per task: a task with feasible starts is
placed at one of them, a task with none has no variable and stays
unplaced. -/
def placeOkB (feasL : List Nat) : Option Nat → Bool
  | none => decide (feasL = [])
  | some i => decide (i ∈ feasL)

/-- Whether the placement `o` of a task of run length `d` covers slot `s`
(the `i <= s < i + dur` test of the no-overlap constraint loop). -/
def coversB (d : Nat) (o : Option Nat) (s : Nat) : Bool :=
  match o with
  | some i => decide (i ≤ s ∧ s < i + d)
  | none => false

/-- Pairwise buffer constraint of `optimize_schedule`: two placed runs must
be separated by at least `buffer_slots` slots in one direction or the other
(the source forbids every `too_close` pair of placement variables). -/
def bufferOkB (d1 d2 b : Nat) : Option Nat → Option Nat → Bool
  | some i, some j => decide (j ≥ i + d1 + b ∨ i ≥ j + d2 + b)
  | _, _ => true

/-- Whether the placement `o` of a task of run length `d` touches calendar
day `day`: the source tests `any(slots.iloc[i + k]["ds"].date() == d for k
in range(dur))`. -/
def touchesB (inp : SchedInput) (d : Nat) (o : Option Nat) (day : Int) : Bool :=
  match o with
  | some i => (List.range d).any (fun k => decide (dayOf (slotTime inp (i + k)) = day))
  | none => false

/-- Buffer width in slots: the source computes
`prefs.buffer_minutes // slot_minutes` (floor). -/
def bufSlots (inp : SchedInput) : Nat :=
  inp.prefs.buffer_minutes / inp.prefs.slot_minutes

/-- Daily cap in slots: `prefs.max_hours_per_day * (60 // slot_minutes)`. -/
def maxSlotsPerDay (inp : SchedInput) : Nat :=
  inp.prefs.max_hours_per_day * (60 / inp.prefs.slot_minutes)

/-- Calendar days of the week's slots — `slots["ds"].dt.date` (the daily-cap
loop of the source iterates over its unique values; iterating over the list
with duplicates imposes the same constraints). -/
def slotDates (inp : SchedInput) : List Int :=
  (List.range (numSlots inp)).map (fun s => dayOf (slotTime inp s))

/-- Transcription of the CP-SAT constraint system `optimize_schedule` posts:
`ps` is a valid solver solution iff it chooses one feasible start for every
task that has one (and none otherwise), covers every slot at most once,
keeps every pair of placed runs `buffer_slots` apart, and lets at most
`max_slots_per_day` placed task blocks touch any calendar day (the cap
constraint is only posted when `max_hours_per_day > 0`). -/
def validPlacement (inp : SchedInput) (ps : List (Option Nat)) : Prop :=
  ps.length = inp.tasks.length
  ∧ (∀ t < inp.tasks.length, placeOkB (feasible_starts inp t) (choiceAt ps t) = true)
  ∧ (∀ s < numSlots inp,
      (List.range inp.tasks.length).countP
        (fun t => coversB (durSlots inp t) (choiceAt ps t) s) ≤ 1)
  ∧ (∀ t1 < inp.tasks.length, ∀ t2 < inp.tasks.length, t1 < t2 →
      bufferOkB (durSlots inp t1) (durSlots inp t2) (bufSlots inp)
        (choiceAt ps t1) (choiceAt ps t2) = true)
  ∧ (0 < inp.prefs.max_hours_per_day →
      ∀ d ∈ slotDates inp,
        (List.range inp.tasks.length).countP
          (fun t => touchesB inp (durSlots inp t) (choiceAt ps t) d)
          ≤ maxSlotsPerDay inp)

instance (inp : SchedInput) (ps : List (Option Nat)) : Decidable (validPlacement inp ps) := by
  unfold validPlacement
  infer_instance

/-- Row appended by the extraction loop of `optimize_schedule` when task `t`
is placed at slot `i`: start `slots.loc[i]`, end `slots.loc[i + dur - 1] +
slot_minutes = slotTime inp (i + dur)`. -/
def mkAsg (inp : SchedInput) (t : Nat) (i : Nat) : Assignment :=
  { id := (taskAt inp t).id
    label := (taskAt inp t).label
    start := slotTime inp i
    stop := slotTime inp (i + durSlots inp t)
    priority := (taskAt inp t).priority }

/-- Rows of the `scheduled_df` returned by `optimize_schedule` for the solver
solution `ps`, in task order (the source's final `sort_values("start")` only
permutes them). -/
def assignments (inp : SchedInput) (ps : List (Option Nat)) : List Assignment :=
  (List.range inp.tasks.length).filterMap (fun t => (choiceAt ps t).map (mkAsg inp t))

/-- Embeds `generate_schedule` of scheduler/scheduler.py: reject a tz-naive
week start with `ValueError("week_start must be timezone-aware")` before any
computation, otherwise score the slots and run the optimizer (the solver's
solution is the explicit parameter `ps`) and return the schedule and the
slot grid. -/
def generate_schedule (inp : SchedInput) (ps : List (Option Nat)) :
    Except String (List Assignment × List Int) :=
  if inp.weekStartTzAware then
    .ok (assignments inp ps, build_slots inp.weekStart inp.prefs.slot_minutes 7)
  else
    .error "week_start must be timezone-aware"

/-- Two assignment rows do not overlap in time: the intersection of the
half-open intervals `[start, stop)` is empty. -/
def noTimeOverlap (a b : Assignment) : Prop :=
  min a.stop b.stop ≤ max a.start b.start

/-- Two assignment rows are separated by at least `bufSlots` slots of time:
one starts no earlier than the other's end plus the buffer. -/
def bufferedApart (inp : SchedInput) (a b : Assignment) : Prop :=
  a.stop + bufSlots inp * inp.prefs.slot_minutes ≤ b.start
  ∨ b.stop + bufSlots inp * inp.prefs.slot_minutes ≤ a.start

/-- Overlap in minutes between the window `[s, e)` and one fixed event
`[st, en)` as computed by `_compute_meeting_density` of
scheduler/prophet_model.py. -/
def eventOverlap (s e st en : Int) : Int :=
  if en ≤ s ∨ st ≥ e then 0 else min en e - max st s

/-- Total overlap minutes between the window `[s, e)` and every fixed
event (the accumulation loop of `_compute_meeting_density`). -/
def overlapSum (fixed : List FixedEvent) (s e : Int) : Int :=
  (fixed.map (fun fe => eventOverlap s e fe.start fe.stop)).sum

/-- Embeds `_compute_meeting_density` at one timestamp `t` with half-window
`w` minutes (source default 90): zero when there are no fixed events, else
the summed overlap with the window `[t - w, t + w)` divided by `2 * w`. -/
def meetingDensity (fixed : List FixedEvent) (t : Int) (w : Int) : ℚ :=
  if fixed = [] then 0
  else (overlapSum fixed (t - w) (t + w) : ℚ) / (2 * w)

/-- Quantity named by the daily-cap claim, following the spec's words: the
total number of assigned slots that fall on calendar day `d`, summed over
all placed tasks. -/
def specAssignedSlotsOnDay (inp : SchedInput) (ps : List (Option Nat)) (d : Int) : Nat :=
  ((List.range inp.tasks.length).map (fun t =>
    match choiceAt ps t with
    | some i => (List.range (durSlots inp t)).countP
        (fun k => decide (dayOf (slotTime inp (i + k)) = d))
    | none => 0)).sum

/-- Whether assignment row `a` touches calendar day `d`, read back from the
row alone: its run length is `(stop - start) / slot_minutes` slots and slot
`k` of the run starts at `start + k * slot_minutes`. -/
def touchesDayA (inp : SchedInput) (a : Assignment) (d : Int) : Bool :=
  (List.range ((a.stop - a.start) / (inp.prefs.slot_minutes : Int)).toNat).any
    (fun k => decide (dayOf (a.start + k * inp.prefs.slot_minutes) = d))

/-- Concrete one-week scenario used to witness the universally quantified
theorems: default preferences (60-minute slots, weekends off, 60-minute
buffer, 4-hour daily cap), one Monday fixed event 12:00–13:45, a 3-hour
deadline task and a 1-hour task. -/
def wIn : SchedInput :=
  { weekStart := 0, weekStartTzAware := true
    prefs := {}
    fixedEvents := [{ id := "e1", label := "meet", start := 720, stop := 825 }]
    tasks := [{ id := "a", label := "deep work", dur_min := 180, priority := 3, latest := some 6780 },
              { id := "b", label := "gym", dur_min := 60, priority := 1, latest := none }]
    missedIntervals := []
    startFrom := none }

/-- A solver solution for `wIn`: the 3-hour task Tuesday 09:00–12:00, the
1-hour task Wednesday 09:00–10:00. -/
def wPs : List (Option Nat) := [some 33, some 57]

lemma two_le_length {α : Type} {a b : α} {l : List α}
    (ha : a ∈ l) (hb : b ∈ l) (hab : a ≠ b) : 2 ≤ l.length := by
  cases l with
  | nil => simp at ha
  | cons x xs =>
    cases xs with
    | nil =>
      rw [List.mem_singleton] at ha hb
      exact absurd (ha.trans hb.symm) hab
    | cons y ys => simp only [List.length_cons]; omega

lemma mem_assignments {inp : SchedInput} {ps : List (Option Nat)} {a : Assignment} :
    a ∈ assignments inp ps ↔
      ∃ t, t < inp.tasks.length ∧ ∃ i, choiceAt ps t = some i ∧ a = mkAsg inp t i := by
  unfold assignments
  rw [List.mem_filterMap]
  constructor
  · rintro ⟨t, htm, hmap⟩
    obtain ⟨i, hci, hmk⟩ := Option.map_eq_some'.mp hmap
    exact ⟨t, List.mem_range.mp htm, i, hci, hmk.symm⟩
  · rintro ⟨t, ht, i, hci, rfl⟩
    exact ⟨t, List.mem_range.mpr ht, by rw [hci]; rfl⟩

lemma choice_mem_feas {inp : SchedInput} {ps : List (Option Nat)} {t i : Nat}
    (hv : validPlacement inp ps) (ht : t < inp.tasks.length)
    (hci : choiceAt ps t = some i) : i ∈ feasible_starts inp t := by
  have h := hv.2.1 t ht
  rw [hci] at h
  simpa [placeOkB] using h

lemma feas_spec {inp : SchedInput} {t i : Nat} (hm : i ∈ feasible_starts inp t) :
    i + durSlots inp t ≤ numSlots inp
    ∧ (∀ k < durSlots inp t, blockedMask inp (i + k) = false)
    ∧ (∀ L, (taskAt inp t).latest = some L → slotTime inp (i + durSlots inp t) ≤ L) := by
  unfold feasible_starts at hm
  rw [List.mem_filter] at hm
  obtain ⟨hr, hok⟩ := hm
  have hrange := List.mem_range.mp hr
  unfold feasOk at hok
  rw [Bool.and_eq_true] at hok
  obtain ⟨hblk, hddl⟩ := hok
  refine ⟨by omega, ?_, ?_⟩
  · intro k hk
    have := List.all_eq_true.mp hblk k (List.mem_range.mpr hk)
    simpa using this
  · intro L hL
    rw [hL] at hddl
    simpa using hddl

lemma slotTime_lt_iff (inp : SchedInput) (hG : 0 < inp.prefs.slot_minutes) {a b : Nat} :
    slotTime inp a < slotTime inp b ↔ a < b := by
  have hG' : (0 : ℤ) < (inp.prefs.slot_minutes : ℤ) := by exact_mod_cast hG
  unfold slotTime
  rw [add_lt_add_iff_left, mul_lt_mul_right hG', Nat.cast_lt]

lemma slotTime_le_iff (inp : SchedInput) (hG : 0 < inp.prefs.slot_minutes) {a b : Nat} :
    slotTime inp a ≤ slotTime inp b ↔ a ≤ b := by
  have hG' : (0 : ℤ) < (inp.prefs.slot_minutes : ℤ) := by exact_mod_cast hG
  unfold slotTime
  rw [add_le_add_iff_left, mul_le_mul_right hG', Nat.cast_le]

lemma slotTime_succ (inp : SchedInput) (s : Nat) :
    slotTime inp (s + 1) = slotTime inp s + inp.prefs.slot_minutes := by
  unfold slotTime
  push_cast
  ring

lemma placed_noTimeOverlap {inp : SchedInput} {ps : List (Option Nat)} {t1 t2 i j : Nat}
    (hG : 0 < inp.prefs.slot_minutes) (hv : validPlacement inp ps)
    (ht1 : t1 < inp.tasks.length) (ht2 : t2 < inp.tasks.length) (hne : t1 ≠ t2)
    (hc1 : choiceAt ps t1 = some i) (hc2 : choiceAt ps t2 = some j) :
    noTimeOverlap (mkAsg inp t1 i) (mkAsg inp t2 j) := by
  by_contra hno
  unfold noTimeOverlap mkAsg at hno
  rw [not_le, lt_min_iff, max_lt_iff, max_lt_iff] at hno
  obtain ⟨⟨h11, h21⟩, h12, h22⟩ := hno
  rw [slotTime_lt_iff inp hG] at h11 h21 h12 h22
  obtain ⟨hr1, hb1, -⟩ := feas_spec (choice_mem_feas hv ht1 hc1)
  obtain ⟨hr2, hb2, -⟩ := feas_spec (choice_mem_feas hv ht2 hc2)
  have hs : max i j < numSlots inp := by omega
  have hcov1 : coversB (durSlots inp t1) (choiceAt ps t1) (max i j) = true := by
    rw [hc1]; simp only [coversB, decide_eq_true_eq]; omega
  have hcov2 : coversB (durSlots inp t2) (choiceAt ps t2) (max i j) = true := by
    rw [hc2]; simp only [coversB, decide_eq_true_eq]; omega
  have hcap := hv.2.2.1 (max i j) hs
  rw [List.countP_eq_length_filter] at hcap
  have h2 : 2 ≤ ((List.range inp.tasks.length).filter
      (fun t => coversB (durSlots inp t) (choiceAt ps t) (max i j))).length :=
    two_le_length (List.mem_filter.mpr ⟨List.mem_range.mpr ht1, hcov1⟩)
      (List.mem_filter.mpr ⟨List.mem_range.mpr ht2, hcov2⟩) hne
  omega

/-- C1: for every valid solver output, no two produced assignments overlap in
time, and no assignment overlaps a blocked slot (fixed event, disallowed
weekend, missed interval, or before `start_from`): the half-open interval of
any blocked slot `s` is disjoint from the interval of every assignment. -/
theorem C1_no_overlap_no_blocked (inp : SchedInput) (hG : 0 < inp.prefs.slot_minutes)
    (ps : List (Option Nat)) (hv : validPlacement inp ps)
    (s : Nat) (hs : s < numSlots inp) (hb : blockedMask inp s = true)
    (a : Assignment) (ha : a ∈ assignments inp ps) :
    List.Pairwise noTimeOverlap (assignments inp ps)
    ∧ min a.stop (slotTime inp (s + 1)) ≤ max a.start (slotTime inp s) := by
  constructor
  · unfold assignments
    rw [List.pairwise_filterMap]
    refine (List.pairwise_lt_range _).imp_of_mem ?_
    intro t1 t2 hm1 hm2 hlt x hx y hy
    rw [Option.mem_def, Option.map_eq_some'] at hx hy
    obtain ⟨i, hci, rfl⟩ := hx
    obtain ⟨j, hcj, rfl⟩ := hy
    exact placed_noTimeOverlap hG hv (List.mem_range.mp hm1) (List.mem_range.mp hm2)
      (Nat.ne_of_lt hlt) hci hcj
  · obtain ⟨t, ht, i, hci, rfl⟩ := mem_assignments.mp ha
    by_contra hno
    unfold mkAsg at hno
    rw [not_le, lt_min_iff, max_lt_iff, max_lt_iff] at hno
    obtain ⟨⟨h11, h21⟩, h12, h22⟩ := hno
    rw [slotTime_lt_iff inp hG] at h11 h21 h12 h22
    obtain ⟨hr, hblk, -⟩ := feas_spec (choice_mem_feas hv ht hci)
    have hk : blockedMask inp (i + (s - i)) = false := hblk (s - i) (by omega)
    have hsi : i + (s - i) = s := by omega
    rw [hsi, hb] at hk
    simp at hk

/-- Witness for C1 at the concrete scenario `wIn`, `wPs`, blocked weekend
slot 120 (Saturday 00:00) and the Tuesday assignment of the first task. -/
theorem C1_no_overlap_no_blocked_witness :
    List.Pairwise noTimeOverlap (assignments wIn wPs)
    ∧ min (mkAsg wIn 0 33).stop (slotTime wIn (120 + 1))
        ≤ max (mkAsg wIn 0 33).start (slotTime wIn 120) :=
  C1_no_overlap_no_blocked wIn (by decide) wPs (by decide) 120 (by decide) (by decide)
    (mkAsg wIn 0 33) (by decide)

lemma slotTime_add (inp : SchedInput) (a b : Nat) :
    slotTime inp (a + b) = slotTime inp a + b * inp.prefs.slot_minutes := by
  unfold slotTime
  push_cast
  ring

lemma placed_bufferedApart {inp : SchedInput} {ps : List (Option Nat)} {t1 t2 i j : Nat}
    (hG : 0 < inp.prefs.slot_minutes) (hv : validPlacement inp ps)
    (ht1 : t1 < inp.tasks.length) (ht2 : t2 < inp.tasks.length) (hlt : t1 < t2)
    (hc1 : choiceAt ps t1 = some i) (hc2 : choiceAt ps t2 = some j) :
    bufferedApart inp (mkAsg inp t1 i) (mkAsg inp t2 j) := by
  have h4 := hv.2.2.2.1 t1 ht1 t2 ht2 hlt
  rw [hc1, hc2] at h4
  simp only [bufferOkB, decide_eq_true_eq] at h4
  unfold bufferedApart mkAsg
  rcases h4 with h | h
  · left
    dsimp only
    rw [← slotTime_add inp (i + durSlots inp t1) (bufSlots inp), slotTime_le_iff inp hG]
    omega
  · right
    dsimp only
    rw [← slotTime_add inp (j + durSlots inp t2) (bufSlots inp), slotTime_le_iff inp hG]
    omega

/-- C3 (amended): every pair of distinct produced assignments is separated by
at least `buffer_minutes / slot_minutes` (integer floor) slots of time, i.e.
`(buffer_minutes / slot_minutes) * slot_minutes` minutes — which equals the
configured `buffer_minutes` only when `slot_minutes` divides it. -/
theorem C3_buffer_amended (inp : SchedInput) (hG : 0 < inp.prefs.slot_minutes)
    (ps : List (Option Nat)) (hv : validPlacement inp ps) :
    List.Pairwise (bufferedApart inp) (assignments inp ps) := by
  unfold assignments
  rw [List.pairwise_filterMap]
  refine (List.pairwise_lt_range _).imp_of_mem ?_
  intro t1 t2 hm1 hm2 hlt x hx y hy
  rw [Option.mem_def, Option.map_eq_some'] at hx hy
  obtain ⟨i, hci, rfl⟩ := hx
  obtain ⟨j, hcj, rfl⟩ := hy
  exact placed_bufferedApart hG hv (List.mem_range.mp hm1) (List.mem_range.mp hm2) hlt hci hcj

/-- Witness for the amended C3 at the concrete scenario. -/
theorem C3_buffer_amended_witness :
    List.Pairwise (bufferedApart wIn) (assignments wIn wPs) :=
  C3_buffer_amended wIn (by decide) wPs (by decide)

/-- Input refuting C3 as stated: 90-minute buffer over 60-minute slots (the
source floors the buffer to `90 // 60 = 1` slot). -/
def c3In : SchedInput :=
  { weekStart := 0, weekStartTzAware := true
    prefs := { slot_minutes := 60, weekend_ok := true, buffer_minutes := 90,
               max_hours_per_day := 4 }
    fixedEvents := []
    tasks := [{ id := "a", label := "a", dur_min := 60, priority := 1, latest := none },
              { id := "b", label := "b", dur_min := 60, priority := 1, latest := none }]
    missedIntervals := []
    startFrom := none }

/-- Solver solution for `c3In` placing the tasks only one empty slot apart. -/
def c3Ps : List (Option Nat) := [some 0, some 2]

/-- C3 (counterexample): with `buffer_minutes = 90` and 60-minute slots, the
constraint system accepts two assignments whose temporal gap is only 60
minutes, less than the configured buffer — the code only enforces
`buffer_minutes // slot_minutes` slots. -/
theorem C3_buffer_counterexample :
    validPlacement c3In c3Ps
    ∧ mkAsg c3In 0 0 ∈ assignments c3In c3Ps
    ∧ mkAsg c3In 1 2 ∈ assignments c3In c3Ps
    ∧ (mkAsg c3In 0 0).stop ≤ (mkAsg c3In 1 2).start
    ∧ (mkAsg c3In 1 2).start - (mkAsg c3In 0 0).stop < c3In.prefs.buffer_minutes := by
  refine ⟨by decide, by decide, by decide, by decide, by decide⟩

lemma countP_filterMap {α β : Type} (f : α → Option β) (p : β → Bool) (l : List α) :
    (l.filterMap f).countP p = l.countP (fun x => ((f x).map p).getD false) := by
  induction l with
  | nil => rfl
  | cons x xs ih =>
    cases hfx : f x with
    | none => simp [List.filterMap_cons, hfx, List.countP_cons, ih]
    | some b => simp [List.filterMap_cons, hfx, List.countP_cons, ih]

lemma anyCongr {α : Type} {l : List α} {f g : α → Bool} (h : ∀ x ∈ l, f x = g x) :
    l.any f = l.any g := by
  induction l with
  | nil => rfl
  | cons x xs ih =>
    simp only [List.any_cons, h x (by simp)]
    rw [ih (fun y hy => h y (by simp [hy]))]

lemma touchesDayA_mkAsg (inp : SchedInput) (hG : 0 < inp.prefs.slot_minutes)
    (t i : Nat) (d : Int) :
    touchesDayA inp (mkAsg inp t i) d = touchesB inp (durSlots inp t) (some i) d := by
  unfold touchesDayA touchesB mkAsg
  have hG0 : (inp.prefs.slot_minutes : ℤ) ≠ 0 := by exact_mod_cast Nat.pos_iff_ne_zero.mp hG
  have hlen : ((slotTime inp (i + durSlots inp t) - slotTime inp i) /
      (inp.prefs.slot_minutes : Int)).toNat = durSlots inp t := by
    rw [slotTime_add]
    simp only [add_sub_cancel_left]
    rw [Int.mul_ediv_cancel _ hG0, Int.toNat_natCast]
  rw [hlen]
  refine anyCongr ?_
  intro k _
  rw [← slotTime_add]

/-- C2 (amended): for every calendar day of the week, the number of placed
task blocks (assignment rows) touching that day is at most
`max_hours_per_day * (60 / slot_minutes)` — the source caps the count of
blocks touching a day, not the count of assigned slots. -/
theorem C2_daily_cap_amended (inp : SchedInput) (hG : 0 < inp.prefs.slot_minutes)
    (ps : List (Option Nat)) (hv : validPlacement inp ps)
    (hcap : 0 < inp.prefs.max_hours_per_day) (d : Int) (hd : d ∈ slotDates inp) :
    (assignments inp ps).countP (fun a => touchesDayA inp a d) ≤ maxSlotsPerDay inp := by
  have h5 := hv.2.2.2.2 hcap d hd
  unfold assignments
  rw [countP_filterMap]
  have heq : (List.range inp.tasks.length).countP
      (fun t => (((choiceAt ps t).map (mkAsg inp t)).map
        (fun a => touchesDayA inp a d)).getD false)
      = (List.range inp.tasks.length).countP
        (fun t => touchesB inp (durSlots inp t) (choiceAt ps t) d) := by
    refine List.countP_congr ?_
    intro t _
    cases hct : choiceAt ps t with
    | none => simp [touchesB]
    | some i => simp [touchesDayA_mkAsg inp hG t i d]
  rw [heq]
  exact h5

/-- Witness for the amended C2 at the concrete scenario, on the Tuesday of
the week. -/
theorem C2_daily_cap_amended_witness :
    (assignments wIn wPs).countP (fun a => touchesDayA wIn a 1) ≤ maxSlotsPerDay wIn :=
  C2_daily_cap_amended wIn (by decide) wPs (by decide) (by decide) 1 (by decide)

/-- Input refuting C2 as stated: a single 8-hour task under a 4-hour daily
cap (the source's cap counts task blocks per day, not slots). -/
def c2In : SchedInput :=
  { weekStart := 0, weekStartTzAware := true
    prefs := { slot_minutes := 60, weekend_ok := true, buffer_minutes := 60,
               max_hours_per_day := 4 }
    fixedEvents := []
    tasks := [{ id := "t", label := "big", dur_min := 480, priority := 1, latest := none }]
    missedIntervals := []
    startFrom := none }

/-- Solver solution for `c2In` placing the 8-hour task at Monday 00:00. -/
def c2Ps : List (Option Nat) := [some 0]

/-- C2 (counterexample): a valid solver output assigns 8 slots touching
Monday while the configured daily cap is `4 * (60 / 60) = 4` slots — the
claimed per-day slot bound is violated. -/
theorem C2_daily_cap_counterexample :
    validPlacement c2In c2Ps
    ∧ (0 : Int) ∈ slotDates c2In
    ∧ maxSlotsPerDay c2In = 4
    ∧ specAssignedSlotsOnDay c2In c2Ps 0 = 8
    ∧ ¬(specAssignedSlotsOnDay c2In c2Ps 0 ≤ maxSlotsPerDay c2In) := by
  refine ⟨by decide, by decide, by decide, by decide, by decide⟩

/-- C6: every task with a deadline that receives an assignment in the output
has that assignment end at or before the deadline. -/
theorem C6_deadline_respected (inp : SchedInput) (ps : List (Option Nat))
    (hv : validPlacement inp ps) (t : Nat) (ht : t < inp.tasks.length)
    (L : Int) (hL : (taskAt inp t).latest = some L)
    (i : Nat) (hci : choiceAt ps t = some i) :
    mkAsg inp t i ∈ assignments inp ps ∧ (mkAsg inp t i).stop ≤ L := by
  refine ⟨mem_assignments.mpr ⟨t, ht, i, hci, rfl⟩, ?_⟩
  obtain ⟨-, -, hd⟩ := feas_spec (choice_mem_feas hv ht hci)
  exact hd L hL

/-- Witness for C6 at the concrete scenario: the 3-hour task with the Friday
17:00 deadline is assigned and ends Tuesday 12:00 ≤ Friday 17:00. -/
theorem C6_deadline_respected_witness :
    mkAsg wIn 0 33 ∈ assignments wIn wPs ∧ (mkAsg wIn 0 33).stop ≤ 6780 :=
  C6_deadline_respected wIn wPs (by decide) 0 (by decide) 6780 (by decide) 33 (by decide)

/-- Input with an unschedulable task: a 200-hour task cannot fit in a
168-slot week, so its feasible-start set is empty. -/
def w8In : SchedInput :=
  { weekStart := 0, weekStartTzAware := true
    prefs := {}
    fixedEvents := []
    tasks := [{ id := "big", label := "big", dur_min := 12000, priority := 1, latest := none },
              { id := "ok", label := "ok", dur_min := 60, priority := 1, latest := none }]
    missedIntervals := []
    startFrom := none }

/-- Solver solution for `w8In`: the unschedulable task is unplaced, the
1-hour task is placed Tuesday 09:00. -/
def w8Ps : List (Option Nat) := [none, some 33]

/-- C8: a task with an empty feasible-start set does not abort the run — it
is simply left unplaced and omitted, while every task with a non-empty
feasible-start set is still placed and its assignment returned, and
`generate_schedule` still returns a result (no error) for tz-aware input. -/
theorem C8_infeasible_task_dropped (inp : SchedInput) (ps : List (Option Nat))
    (hv : validPlacement inp ps) (t : Nat) (ht : t < inp.tasks.length)
    (hfe : feasible_starts inp t = []) (u : Nat) (hu : u < inp.tasks.length)
    (i : Nat) (hci : choiceAt ps u = some i)
    (htz : inp.weekStartTzAware = true) :
    choiceAt ps t = none
    ∧ choiceAt ps u ≠ none
    ∧ mkAsg inp u i ∈ assignments inp ps
    ∧ generate_schedule inp ps =
        .ok (assignments inp ps, build_slots inp.weekStart inp.prefs.slot_minutes 7) := by
  refine ⟨?_, by rw [hci]; simp, mem_assignments.mpr ⟨u, hu, i, hci, rfl⟩, by simp [generate_schedule, htz]⟩
  have h2 := hv.2.1 t ht
  cases hc : choiceAt ps t with
  | none => rfl
  | some j =>
    rw [hc] at h2
    rw [hfe] at h2
    simp [placeOkB] at h2

/-- Witness for C8: in `w8In` the 200-hour task has no feasible start and is
dropped, while the 1-hour task is still assigned and the run returns ok. -/
theorem C8_infeasible_task_dropped_witness :
    choiceAt w8Ps 0 = none
    ∧ choiceAt w8Ps 1 ≠ none
    ∧ mkAsg w8In 1 33 ∈ assignments w8In w8Ps
    ∧ generate_schedule w8In w8Ps =
        .ok (assignments w8In w8Ps, build_slots w8In.weekStart w8In.prefs.slot_minutes 7) :=
  C8_infeasible_task_dropped w8In w8Ps (by decide) 0 (by decide) (by decide) 1 (by decide)
    33 (by decide) (by decide)

/-- C9: a tz-naive week start makes `generate_schedule` fail with the
validation error before any downstream computation. -/
theorem C9_tz_naive_rejected (inp : SchedInput) (ps : List (Option Nat))
    (h : inp.weekStartTzAware = false) :
    generate_schedule inp ps = .error "week_start must be timezone-aware" := by
  simp [generate_schedule, h]

/-- Concrete tz-naive input for the C9 witness. -/
def c9In : SchedInput := { wIn with weekStartTzAware := false }

/-- Witness for C9 at the tz-naive variant of the concrete scenario. -/
theorem C9_tz_naive_rejected_witness :
    generate_schedule c9In wPs = .error "week_start must be timezone-aware" :=
  C9_tz_naive_rejected c9In wPs (by decide)

/-- C10: a task with positive duration shorter than one slot truncates to a
zero-slot run; it keeps a non-empty feasible-start set (so it is not
dropped), any assignment produced for it is a zero-length block with end
equal to start, and its placement covers no slot, exempting it from the
per-slot overlap constraint. -/
theorem C10_subslot_task_schedulable (inp : SchedInput) (ps : List (Option Nat))
    (hv : validPlacement inp ps) (t : Nat) (ht : t < inp.tasks.length)
    (hpos : 0 < (taskAt inp t).dur_min)
    (hlt : (taskAt inp t).dur_min < inp.prefs.slot_minutes)
    (hnd : (taskAt inp t).latest = none)
    (i : Nat) (hci : choiceAt ps t = some i) (s : Nat) :
    durSlots inp t = 0
    ∧ feasible_starts inp t ≠ []
    ∧ mkAsg inp t i ∈ assignments inp ps
    ∧ (mkAsg inp t i).stop = (mkAsg inp t i).start
    ∧ coversB (durSlots inp t) (choiceAt ps t) s = false := by
  have hd0 : durSlots inp t = 0 := Nat.div_eq_of_lt hlt
  refine ⟨hd0, ?_, mem_assignments.mpr ⟨t, ht, i, hci, rfl⟩, ?_, ?_⟩
  · have h0 : 0 ∈ feasible_starts inp t := by
      unfold feasible_starts
      rw [List.mem_filter]
      constructor
      · rw [List.mem_range]
        omega
      · unfold feasOk
        rw [hd0, hnd]
        simp
    exact List.ne_nil_of_mem h0
  · simp [mkAsg, hd0]
  · rw [hci]
    unfold coversB
    rw [hd0]
    simp only [Nat.add_zero, decide_eq_false_iff_not, not_and, not_lt]
    omega

/-- Input for the C10 witness: a single 30-minute task on a 60-minute grid
with no deadline. -/
def w10In : SchedInput :=
  { weekStart := 0, weekStartTzAware := true
    prefs := {}
    fixedEvents := []
    tasks := [{ id := "z", label := "z", dur_min := 30, priority := 1, latest := none }]
    missedIntervals := []
    startFrom := none }

/-- Solver solution for `w10In` placing the sub-slot task at slot 5. -/
def w10Ps : List (Option Nat) := [some 5]

/-- Witness for C10: the 30-minute task is schedulable, produces the
zero-length assignment 05:00–05:00 and covers no slot. -/
theorem C10_subslot_task_schedulable_witness :
    durSlots w10In 0 = 0
    ∧ feasible_starts w10In 0 ≠ []
    ∧ mkAsg w10In 0 5 ∈ assignments w10In w10Ps
    ∧ (mkAsg w10In 0 5).stop = (mkAsg w10In 0 5).start
    ∧ coversB (durSlots w10In 0) (choiceAt w10Ps 0) 5 = false :=
  C10_subslot_task_schedulable w10In w10Ps (by decide) 0 (by decide) (by decide) (by decide)
    (by decide) 5 (by decide) 5

/-- Input with a malformed fixed event (end ≤ start) and a malformed missed
interval, but a tz-aware week start. -/
def c4In : SchedInput :=
  { weekStart := 0, weekStartTzAware := true
    prefs := {}
    fixedEvents := [{ id := "bad", label := "bad", start := 200, stop := 100 }]
    tasks := []
    missedIntervals := [(500, 400)]
    startFrom := none }

/-- C4 (counterexample): `generate_schedule` contains no interval validation
— an input whose fixed event and missed interval are malformed (end ≤
start) is not rejected; the run returns a result. -/
theorem C4_malformed_interval_counterexample :
    c4In.fixedEvents.any (fun fe => decide (fe.stop ≤ fe.start)) = true
    ∧ c4In.missedIntervals.any (fun se => decide (se.2 ≤ se.1)) = true
    ∧ generate_schedule c4In [] =
        .ok (assignments c4In [], build_slots c4In.weekStart c4In.prefs.slot_minutes 7) := by
  refine ⟨by decide, by decide, rfl⟩

/-- C4 (amended): `generate_schedule` validates only the tz-awareness of the
week start; a malformed interval (end ≤ start) is not rejected — the run
proceeds normally and such an interval blocks no slot. -/
theorem C4_malformed_interval_amended (inp : SchedInput)
    (htz : inp.weekStartTzAware = true) (ps : List (Option Nat))
    (fe : FixedEvent) (hfe : fe ∈ inp.fixedEvents) (hbad : fe.stop ≤ fe.start)
    (mi : Int × Int) (hmi : mi ∈ inp.missedIntervals) (hbad2 : mi.2 ≤ mi.1)
    (s : Nat) :
    generate_schedule inp ps =
        .ok (assignments inp ps, build_slots inp.weekStart inp.prefs.slot_minutes 7)
    ∧ ¬(fe.start ≤ slotTime inp s ∧ slotTime inp s < fe.stop)
    ∧ ¬(mi.1 ≤ slotTime inp s ∧ slotTime inp s < mi.2) := by
  refine ⟨by simp [generate_schedule, htz], by omega, by omega⟩

/-- Witness for the amended C4 at `c4In`, slot 0. -/
theorem C4_malformed_interval_amended_witness :
    generate_schedule c4In [] =
        .ok (assignments c4In [], build_slots c4In.weekStart c4In.prefs.slot_minutes 7)
    ∧ ¬(({ id := "bad", label := "bad", start := 200, stop := 100 } : FixedEvent).start
          ≤ slotTime c4In 0
        ∧ slotTime c4In 0
          < ({ id := "bad", label := "bad", start := 200, stop := 100 } : FixedEvent).stop)
    ∧ ¬(((500 : Int), (400 : Int)).1 ≤ slotTime c4In 0
        ∧ slotTime c4In 0 < ((500 : Int), (400 : Int)).2) :=
  C4_malformed_interval_amended c4In (by decide) []
    { id := "bad", label := "bad", start := 200, stop := 100 } (by decide) (by decide)
    (500, 400) (by decide) (by decide) 0

/-- Two fixed events occupy disjoint half-open time intervals. -/
def evDisjoint (a b : FixedEvent) : Prop := a.stop ≤ b.start ∨ b.stop ≤ a.start

instance (a b : FixedEvent) : Decidable (evDisjoint a b) := by
  unfold evDisjoint
  infer_instance

lemma eventOverlap_nonneg {s e st en : Int} (hse : s ≤ e) (h : st < en) :
    0 ≤ eventOverlap s e st en := by
  unfold eventOverlap
  split <;> omega

lemma eventOverlap_eq_card {s e st en : Int} (hse : s ≤ e) (h : st < en) :
    eventOverlap s e st en = ((Finset.Ico st en ∩ Finset.Ico s e).card : ℤ) := by
  rw [Finset.Ico_inter_Ico, Int.card_Ico]
  unfold eventOverlap
  split <;> omega

lemma sum_card_le (l : List (Finset ℤ)) : ∀ W : Finset ℤ, (∀ A ∈ l, A ⊆ W) →
    l.Pairwise Disjoint → (l.map Finset.card).sum ≤ W.card := by
  induction l with
  | nil => intro W _ _; simp
  | cons A xs ih =>
    intro W hsub hp
    rw [List.pairwise_cons] at hp
    obtain ⟨hdA, hptail⟩ := hp
    have hAW : A ⊆ W := hsub A (by simp)
    have hsub' : ∀ B ∈ xs, B ⊆ W \ A := by
      intro B hB x hx
      rw [Finset.mem_sdiff]
      exact ⟨hsub B (by simp [hB]) hx, fun hxA => Finset.disjoint_left.mp (hdA B hB) hxA hx⟩
    have htail := ih (W \ A) hsub' hptail
    rw [List.map_cons, List.sum_cons]
    rw [Finset.card_sdiff hAW] at htail
    have hcard := Finset.card_le_card hAW
    omega

lemma overlapSum_nonneg {fixed : List FixedEvent} {s e : Int} (hse : s ≤ e)
    (hwf : ∀ fe ∈ fixed, fe.start < fe.stop) : 0 ≤ overlapSum fixed s e := by
  refine List.sum_nonneg ?_
  intro x hx
  rw [List.mem_map] at hx
  obtain ⟨fe, hfe, rfl⟩ := hx
  exact eventOverlap_nonneg hse (hwf fe hfe)

lemma overlapSum_le (fixed : List FixedEvent) (s e : Int) (hse : s ≤ e)
    (hwf : ∀ fe ∈ fixed, fe.start < fe.stop)
    (hdisj : List.Pairwise evDisjoint fixed) : overlapSum fixed s e ≤ e - s := by
  have key : overlapSum fixed s e =
      (((fixed.map (fun fe => (Finset.Ico fe.start fe.stop ∩ Finset.Ico s e).card)).sum : ℕ) : ℤ) := by
    unfold overlapSum
    rw [Nat.cast_list_sum, List.map_map]
    refine congrArg List.sum ?_
    refine List.map_congr_left ?_
    intro fe hfe
    exact eventOverlap_eq_card hse (hwf fe hfe)
  have hdisj' : (fixed.map (fun fe => Finset.Ico fe.start fe.stop ∩ Finset.Ico s e)).Pairwise
      Disjoint := by
    refine hdisj.map _ ?_
    intro a b hab
    rw [Finset.disjoint_left]
    intro x hxa hxb
    rw [Finset.mem_inter, Finset.mem_Ico, Finset.mem_Ico] at hxa hxb
    unfold evDisjoint at hab
    omega
  have hsub : ∀ A ∈ fixed.map (fun fe => Finset.Ico fe.start fe.stop ∩ Finset.Ico s e),
      A ⊆ Finset.Ico s e := by
    intro A hA
    rw [List.mem_map] at hA
    obtain ⟨fe, -, rfl⟩ := hA
    exact Finset.inter_subset_right
  have hbound := sum_card_le _ (Finset.Ico s e) hsub hdisj'
  simp only [List.map_map, Function.comp_def] at hbound
  rw [Int.card_Ico] at hbound
  rw [key]
  omega

/-- C5 (amended): for well-formed fixed events (start < end), the meeting
density at every timestamp equals the summed per-event overlap with the
±`w`-minute window divided by the window length `2 * w`; it is nonnegative,
it is zero when there are no fixed events, and it is at most 1 provided the
fixed events are pairwise disjoint (overlapping events are double-counted by
the source and can push the value above 1). -/
theorem C5_meeting_density_amended (fixed : List FixedEvent) (t w : Int) (hw : 0 < w)
    (hwf : ∀ fe ∈ fixed, fe.start < fe.stop)
    (hdisj : List.Pairwise evDisjoint fixed) :
    meetingDensity fixed t w = (overlapSum fixed (t - w) (t + w) : ℚ) / (2 * w)
    ∧ 0 ≤ meetingDensity fixed t w
    ∧ meetingDensity fixed t w ≤ 1
    ∧ (fixed = [] → meetingDensity fixed t w = 0) := by
  have hw' : (0 : ℚ) < 2 * (w : ℚ) := by positivity
  have hsum_le : overlapSum fixed (t - w) (t + w) ≤ 2 * w := by
    have := overlapSum_le fixed (t - w) (t + w) (by omega) hwf hdisj
    omega
  refine ⟨?_, ?_, ?_, ?_⟩
  · unfold meetingDensity
    split
    · rename_i hnil
      subst hnil
      simp [overlapSum]
    · rfl
  · unfold meetingDensity
    split
    · norm_num
    · refine div_nonneg ?_ (by positivity)
      exact_mod_cast overlapSum_nonneg (by omega) hwf
  · unfold meetingDensity
    split
    · norm_num
    · rw [div_le_one (by positivity)]
      exact_mod_cast hsum_le
  · intro h
    simp [meetingDensity, h]

/-- Witness for the amended C5: two disjoint fixed events around timestamp 0
with the default ±90-minute window. -/
theorem C5_meeting_density_amended_witness :
    meetingDensity [{ id := "a", label := "a", start := 0, stop := 30 },
                    { id := "b", label := "b", start := 50, stop := 60 }] 0 90
      = (overlapSum [{ id := "a", label := "a", start := 0, stop := 30 },
                     { id := "b", label := "b", start := 50, stop := 60 }]
          (0 - 90) (0 + 90) : ℚ) / (2 * 90)
    ∧ 0 ≤ meetingDensity [{ id := "a", label := "a", start := 0, stop := 30 },
                          { id := "b", label := "b", start := 50, stop := 60 }] 0 90
    ∧ meetingDensity [{ id := "a", label := "a", start := 0, stop := 30 },
                      { id := "b", label := "b", start := 50, stop := 60 }] 0 90 ≤ 1
    ∧ (([{ id := "a", label := "a", start := 0, stop := 30 },
         { id := "b", label := "b", start := 50, stop := 60 }] : List FixedEvent) = [] →
        meetingDensity [{ id := "a", label := "a", start := 0, stop := 30 },
                        { id := "b", label := "b", start := 50, stop := 60 }] 0 90 = 0) :=
  C5_meeting_density_amended
    [{ id := "a", label := "a", start := 0, stop := 30 },
     { id := "b", label := "b", start := 50, stop := 60 }] 0 90
    (by decide) (by decide) (by decide)

/-- The event used to refute the claimed 0..1 range of the meeting density. -/
def c5ev : FixedEvent := { id := "m", label := "m", start := -90, stop := 90 }

/-- C5 (counterexample): two identical (hence overlapping) well-formed fixed
events covering the whole ±90-minute window around timestamp 0 are
double-counted, giving density 2 — outside the claimed range 0..1. -/
theorem C5_meeting_density_counterexample :
    (([c5ev, c5ev] : List FixedEvent).all (fun fe => decide (fe.start < fe.stop)) = true)
    ∧ meetingDensity [c5ev, c5ev] 0 90 = 2
    ∧ ¬(meetingDensity [c5ev, c5ev] 0 90 ≤ 1) := by
  have hne : ([c5ev, c5ev] : List FixedEvent) ≠ [] := by simp
  have hval : meetingDensity [c5ev, c5ev] 0 90 = 2 := by
    rw [meetingDensity, if_neg hne]
    norm_num [overlapSum, eventOverlap, c5ev]
  refine ⟨by decide, hval, ?_⟩
  rw [hval]
  norm_num

/-- C7 (counterexample): with slot granularity 11 (which does not divide the
7×1440-minute week) the produced grid has 917 slots, while the claimed
length (7 × 1440) / G is 916 under floor division and is not attained by any
integer length exactly. -/
theorem C7_slot_grid_counterexample :
    (build_slots 0 11 7).length = 917
    ∧ 7 * 1440 / 11 = 916
    ∧ (build_slots 0 11 7).length ≠ 7 * 1440 / 11
    ∧ (build_slots 0 11 7).length * 11 ≠ 7 * 1440 := by
  have hl : (build_slots 0 11 7).length = 917 := by
    unfold build_slots
    rw [List.length_map, List.length_range]
    rfl
  refine ⟨hl, by norm_num, ?_, ?_⟩
  · rw [hl]
    norm_num
  · rw [hl]
    norm_num

/-- C7 (amended): the slot grid has `⌈(7 × 1440) / G⌉` entries — equal to
`(7 × 1440) / G` whenever `G` divides the week length — and consecutive slot
timestamps always differ by exactly `G` minutes (no gaps, no overlaps). -/
theorem C7_slot_grid_amended (ws : Int) (G : Nat) (i : Nat) (hG : 0 < G)
    (hi : i + 1 < (build_slots ws G 7).length) :
    (build_slots ws G 7).length = (7 * 1440 + G - 1) / G
    ∧ (G ∣ 7 * 1440 → (build_slots ws G 7).length = 7 * 1440 / G)
    ∧ (build_slots ws G 7).getD (i + 1) 0 - (build_slots ws G 7).getD i 0 = G := by
  have hlen : (build_slots ws G 7).length = slotCount G 7 := by
    unfold build_slots
    rw [List.length_map, List.length_range]
  refine ⟨by rw [hlen]; rfl, ?_, ?_⟩
  · intro hdvd
    obtain ⟨q, hq⟩ := hdvd
    rw [hlen]
    unfold slotCount
    rw [hq]
    have hrw : G * q + G - 1 = (G - 1) + G * q := by omega
    rw [hrw, Nat.add_mul_div_left _ _ hG, Nat.div_eq_of_lt (by omega),
      Nat.mul_div_cancel_left _ hG]
    omega
  · have hgd : ∀ j, j < slotCount G 7 → (build_slots ws G 7).getD j 0 = ws + j * G := by
      intro j hj
      unfold build_slots
      have hj' : j < ((List.range (slotCount G 7)).map
          (fun (k : Nat) => ws + (k : Int) * (G : Int))).length := by
        rw [List.length_map, List.length_range]
        exact hj
      rw [List.getD_eq_getElem _ _ hj']
      simp
    rw [hlen] at hi
    rw [hgd (i + 1) hi, hgd i (by omega)]
    push_cast
    ring

/-- Witness for the amended C7 at `G = 60`: 168 slots, consecutive
timestamps 60 minutes apart. -/
theorem C7_slot_grid_amended_witness :
    (build_slots 0 60 7).length = (7 * 1440 + 60 - 1) / 60
    ∧ (60 ∣ 7 * 1440 → (build_slots 0 60 7).length = 7 * 1440 / 60)
    ∧ (build_slots 0 60 7).getD (0 + 1) 0 - (build_slots 0 60 7).getD 0 0 = 60 :=
  C7_slot_grid_amended 0 60 0 (by decide) (by decide)

end Sched
